import Mathlib

/-!
Verification of the tysh interactive type-inspection shell
(src/bin/tysh.rs of the debugdb repository) against its design document.

Modelling conventions.  Rust string slices are modelled as `List Char`;
each printed line is one `List Char` (ANSI colour and style escapes are
elided, they wrap fixed text and carry no information).  Machine integers
(`usize`, `u64`) are `Nat` with explicit range checks where the Rust code
checks them.  A Rust operation that can panic (slicing a string out of
range, `Option::unwrap`) is modelled as an `Option`-returning function,
`none` being the panic.  The external type database `dwarfldr::Types` is
out of scope per the design document and is modelled as a record of the
five query operations the shell consumes, exactly its interface.

On byte indices versus character indices: the Rust code slices strings at
byte offsets.  Every slice it takes starts immediately after an ASCII
prefix it has just checked (so the byte offset equals the character
offset) and ends immediately before a final ASCII `>` character (one
byte), so slicing the character list at the same positions yields exactly
the characters the byte slice holds, and a position is a character
boundary exactly when the model says it is in range.
-/

/-- Model of `str::starts_with(&str)` on character lists. -/
def lStartsWith (s p : List Char) : Bool := s.take p.length == p

/-- Model of `str::ends_with` (used with a one-character pattern). When the
pattern is longer than the string the subtraction truncates and the
equality fails on length, matching Rust's `false`. -/
def lEndsWith (s p : List Char) : Bool := s.drop (s.length - p.length) == p

/-- Checked slice `&l[a..b]`.  Rust panics when the range is out of bounds
(or inverted); `none` models that panic. -/
def sliceChk (l : List Char) (a b : Nat) : Option (List Char) :=
  if a ≤ b ∧ b ≤ l.length then some ((l.drop a).take (b - a)) else none

/-- Model of `char::is_whitespace` (the Unicode White_Space property). -/
def isWS (c : Char) : Bool :=
  (9 ≤ c.toNat && c.toNat ≤ 13) || c.toNat == 32 || c.toNat == 133 ||
  c.toNat == 160 || c.toNat == 5760 || (8192 ≤ c.toNat && c.toNat ≤ 8202) ||
  c.toNat == 8232 || c.toNat == 8233 || c.toNat == 8239 || c.toNat == 8287 ||
  c.toNat == 12288

/-- Model of `str::trim`. -/
def rustTrim (l : List Char) : List Char :=
  ((l.dropWhile isWS).reverse.dropWhile isWS).reverse

/-- Model of `str::split_once(char::is_whitespace)`: split at the first
whitespace character, which is dropped; `none` when there is none. -/
def splitOnceWs : List Char → Option (List Char × List Char)
  | [] => none
  | c :: cs =>
    if isWS c then some ([], cs)
    else
      match splitOnceWs cs with
      | some p => some (c :: p.1, p.2)
      | none => none

/-- Model of `str::contains(&str)`: substring occurrence test. -/
def containsSub (s pat : List Char) : Bool :=
  (List.range (s.length + 1)).any (fun i => lStartsWith (s.drop i) pat)

/-- Concatenating map: models a `for` loop whose body emits output items. -/
def cmap {α β : Type} (f : α → List β) : List α → List β
  | [] => []
  | a :: l => f a ++ cmap f l

/-- Fallible map: models a loop of renderings each of which may panic.
Rust panics at the first failing element; the overall result (`none`) is
the same. -/
def omap {α β : Type} (f : α → Option β) : List α → Option (List β)
  | [] => some []
  | a :: l =>
    match f a, omap f l with
    | some b, some bs => some (b :: bs)
    | _, _ => none

/-- Lower-case digit characters as produced by Rust's `{:x}` and `{}`
formatting (the default arm is unreachable for digits of a valid base). -/
def hexDigitChar : Nat → Char
  | 0 => '0' | 1 => '1' | 2 => '2' | 3 => '3' | 4 => '4'
  | 5 => '5' | 6 => '6' | 7 => '7' | 8 => '8' | 9 => '9'
  | 10 => 'a' | 11 => 'b' | 12 => 'c' | 13 => 'd' | 14 => 'e' | 15 => 'f'
  | _ => '?'

/-- Digits of `n` in the given base, most significant first.  Structured on
a fuel argument so that it reduces by kernel computation; `fuel = n + 1`
always suffices because the argument strictly decreases. -/
def natDigitsAux (base : Nat) : Nat → Nat → List Char
  | 0, _ => []
  | fuel + 1, n =>
    if n < base then [hexDigitChar n]
    else natDigitsAux base fuel (n / base) ++ [hexDigitChar (n % base)]

/-- Rust `{:x}` rendering of an unsigned integer (lowercase, no padding). -/
def toHex (n : Nat) : List Char := natDigitsAux 16 (n + 1) n

/-- Rust `{}` (decimal) rendering of an unsigned integer. -/
def decRepr (n : Nat) : List Char := natDigitsAux 10 (n + 1) n

/-- Rust `{:08x}`: lowercase hex, zero-padded on the left to at least
8 digits (wider values print in full). -/
def hexPad8 (n : Nat) : List Char :=
  List.replicate (8 - (toHex n).length) '0' ++ toHex n

/-- Model of `char::to_digit(radix)`. -/
def charToDigit (radix : Nat) (c : Char) : Option Nat :=
  let v :=
    if '0' ≤ c ∧ c ≤ '9' then some (c.toNat - 48)
    else if 'a' ≤ c ∧ c ≤ 'z' then some (c.toNat - 87)
    else if 'A' ≤ c ∧ c ≤ 'Z' then some (c.toNat - 55)
    else none
  match v with
  | some d => if d < radix then some d else none
  | none => none

/-- The digit-accumulation loop of `from_str_radix`. -/
def digitsValAux (radix : Nat) : Nat → List Char → Option Nat
  | a, [] => some a
  | a, c :: cs =>
    match charToDigit radix c with
    | some d => digitsValAux radix (a * radix + d) cs
    | none => none

/-- `from_str_radix` on the digit part: nonempty, all digits valid for the
radix, result below the type's bound.  Rust checks overflow at every
accumulation step with `checked_mul`/`checked_add`; since the accumulator
is monotonically nondecreasing and every intermediate value is bounded by
the final value, stepwise checking is equivalent to the single final bound
check used here. -/
def digitsCore (radix bound : Nat) (ds : List Char) : Option Nat :=
  match ds with
  | [] => none
  | _ :: _ =>
    match digitsValAux radix 0 ds with
    | some v => if v < bound then some v else none
    | none => none

/-- Value bound of `usize` and `u64` on the 64-bit targets the shell runs
on. -/
def USIZE : Nat := 2 ^ 64

/-- Model of `uN::from_str_radix` (and of `str::parse::<u64>`, which is the
radix-10 instance) for UNSIGNED integer types: an optional single leading
`+`, then a nonempty run of digits.  Rust strips a leading `-` only for
signed types (`is_signed_ty`); for unsigned types a leading `-` stays in
the digit string and fails as an invalid digit, which is exactly what
happens here since `charToDigit` rejects it. -/
def fromStrRadix (radix bound : Nat) (s : List Char) : Option Nat :=
  match s with
  | [] => none
  | c :: ds =>
    if c = '+' then digitsCore radix bound ds
    else digitsCore radix bound (c :: ds)

/-- `gimli::UnitSectionOffset`, wrapped by tysh's `Goff` newtype: the
global offset of a type entry, tagged by originating section. -/
inductive Goff where
  | DebugInfoOffset (x : Nat)
  | DebugTypesOffset (x : Nat)
deriving DecidableEq

/-- Numeric offset carried by a goff. -/
def Goff.off : Goff → Nat
  | .DebugInfoOffset x => x
  | .DebugTypesOffset x => x

/-- `impl Display for Goff` (tysh.rs:71): the canonical textual form. -/
def goffText : Goff → List Char
  | .DebugInfoOffset x => ("<.debug_info+0x".data) ++ hexPad8 x ++ (">".data)
  | .DebugTypesOffset x => ("<.debug_types+0x".data) ++ hexPad8 x ++ (">".data)

/-- Result alternatives of `parse_type_name` (tysh.rs:166). -/
inductive ParsedTypeName where
  | Name (s : List Char)
  | Goff (g : Goff)
deriving DecidableEq

/-- Body of `parse_type_name` acting on `rest = &s[8..]` (tysh.rs:140-160).
Outer `none` models a slicing panic; `some none` models a reported parse
failure (the Rust code prints a message and returns `None`). -/
def parseGoffBody (rest : List Char) : Option (Option ParsedTypeName) :=
  if lStartsWith rest ("info+0x".data) then
    match sliceChk rest 7 (rest.length - 1) with
    | none => none
    | some num =>
      match fromStrRadix 16 USIZE num with
      | some n => some (some (ParsedTypeName.Goff (Goff.DebugInfoOffset n)))
      | none => some none
  else if lStartsWith rest ("types+0x".data) then
    match sliceChk rest 8 (rest.length - 1) with
    | none => none
    | some num =>
      match fromStrRadix 16 USIZE num with
      | some n => some (some (ParsedTypeName.Goff (Goff.DebugTypesOffset n)))
      | none => some none
  else some none

/-- `parse_type_name` (tysh.rs:137).  Outer `none` models a panic
(impossible, proved below); `some none` a reported parse failure. -/
def parse_type_name (s : List Char) : Option (Option ParsedTypeName) :=
  if lStartsWith s ("<.debug_".data) && lEndsWith s (">".data) then
    match sliceChk s 8 s.length with
    | none => none
    | some rest => parseGoffBody rest
  else some (some (ParsedTypeName.Name s))

/-- `dwarfldr::Encoding`.  Modelled from the spec: the loader's encoding
enumeration is external code of this repository not under src/; the spec
lists Unsigned/Signed/Float/Boolean/UnsignedChar/SignedChar/other, and
`Other` stands for any encoding outside the named six. -/
inductive Encoding where
  | Unsigned | Signed | Float | Boolean | UnsignedChar | SignedChar | Other
deriving DecidableEq

/-- `{:?}` debug rendering of an `Encoding` value (the derived Debug form
is the bare variant name). -/
def encodingDebugRepr : Encoding → List Char
  | .Unsigned => ("Unsigned".data)
  | .Signed => ("Signed".data)
  | .Float => ("Float".data)
  | .Boolean => ("Boolean".data)
  | .UnsignedChar => ("UnsignedChar".data)
  | .SignedChar => ("SignedChar".data)
  | .Other => ("Other".data)

/-- A struct/enum member (spec section 3): optional name, type goff, byte
offset, optional alignment, artificial flag. -/
structure Member where
  name : Option (List Char)
  tyGoff : Goff
  location : Nat
  alignment : Option Nat
  artificial : Bool
deriving DecidableEq

structure TemplateTypeParameter where
  name : List Char
  tyGoff : Goff
deriving DecidableEq

/-- Struct entry.  `members` is the offset-keyed mapping; list order is
the mapping's iteration order (ascending byte offset). -/
structure StructS where
  name : List Char
  byteSize : Nat
  alignment : Option Nat
  tupleLike : Bool
  templateTypeParameters : List TemplateTypeParameter
  members : List (Nat × Member)
deriving DecidableEq

structure VariantS where
  member : Member
deriving DecidableEq

/-- `dwarfldr::VariantShape`.  In `Many`, `variants` is the mapping from
optional discriminant value to variant; list order is the mapping's
iteration order. -/
inductive VariantShape where
  | Zero
  | One (v : VariantS)
  | Many (member : Member) (variants : List (Option Nat × VariantS))
deriving DecidableEq

structure VariantPart where
  shape : VariantShape
deriving DecidableEq

structure EnumS where
  name : List Char
  byteSize : Nat
  alignment : Option Nat
  templateTypeParameters : List TemplateTypeParameter
  variantPart : VariantPart
deriving DecidableEq

structure Enumerator where
  name : List Char
  constValue : Nat
deriving DecidableEq

structure CEnumS where
  name : List Char
  byteSize : Nat
  alignment : Nat
  enumerators : List (Nat × Enumerator)
deriving DecidableEq

structure BaseS where
  encoding : Encoding
  byteSize : Nat
deriving DecidableEq

structure PointerS where
  name : List Char
  tyGoff : Goff
deriving DecidableEq

structure ArrayS where
  elementTyGoff : Goff
  lowerBound : Nat
  count : Option Nat
deriving DecidableEq

structure UnionS where
  name : List Char
deriving DecidableEq

structure SubroutineS where
  formalParameters : List Goff
  returnTyGoff : Option Goff
deriving DecidableEq

/-- `dwarfldr::Type`, the closed union of type entries (named `TypeEntry`
here because `Type` is reserved in Lean). -/
inductive TypeEntry where
  | Base (s : BaseS)
  | Pointer (s : PointerS)
  | Array (s : ArrayS)
  | Struct (s : StructS)
  | Enum (s : EnumS)
  | CEnum (s : CEnumS)
  | Union (s : UnionS)
  | Subroutine (s : SubroutineS)
deriving DecidableEq

/-- A line-table row as consumed by `cmd_addr2line`. -/
structure LineRow where
  file : List Char
  line : Option Nat
  column : Option Nat
deriving DecidableEq

/-- The external database `dwarfldr::Types`, modelled as the record of the
query operations the shell consumes (spec sections 4.1, 4.4, 6).  `types`
is the snapshot in iteration order. -/
structure Types where
  types : List (Goff × TypeEntry)
  name_from_goff : Goff → Option (List Char)
  types_by_name : List Char → List (Goff × TypeEntry)
  type_from_goff : Goff → Option TypeEntry
  lookup_line_row : Nat → Option LineRow

/-- `NamedGoff` display (tysh.rs:84): resolved name (or the anonymous
placeholder), a space, then the textual address.  Bold/dim escapes
elided. -/
def named_goff (db : Types) (g : Goff) : List Char :=
  (match db.name_from_goff g with
   | some n => n
   | none => ("<anonymous type>".data)) ++ (" ".data) ++ goffText g

/-- The filter in `cmd_list`'s loop (tysh.rs:125-131): an entry is skipped
iff a substring argument is present, the name resolves, and the resolved
name does not contain the argument.  Entries whose name does not resolve
fall through the `if let` and are printed. -/
def list_keep (db : Types) (args : List Char) (g : Goff) : Bool :=
  if args.isEmpty then true
  else
    match db.name_from_goff g with
    | some name => containsSub name args
    | none => true

/-- `cmd_list` (tysh.rs:120): the printed entries, each as (goff, printed
line). -/
def cmd_list (db : Types) (args : List Char) : List (Goff × List Char) :=
  (db.types.filter (fun gt => list_keep db args gt.1)).map
    (fun gt => (gt.1, named_goff db gt.1))

/-- One output item of `simple_query_cmd`: a blank line, the red
"No types found." line, the yellow note line, or one result entry (its
named-goff header followed by the per-command body `q` printed for it). -/
inductive QItem where
  | blank
  | no_types
  | note (n : Nat)
  | entry (g : Goff) (body : List (List Char))
deriving DecidableEq

def isBlankItem : QItem → Bool
  | QItem.blank => true
  | _ => false

def count_blank (l : List QItem) : Nat := (l.filter isBlankItem).length

/-- The result loop of `simple_query_cmd` (tysh.rs:211-215): when there
are many results a blank line is printed before EVERY entry, the first
included. -/
def simple_query_entries (db : Types) (q : Types → TypeEntry → List (List Char))
    (many : Bool) (ts : List (Goff × TypeEntry)) : List QItem :=
  cmap (fun gt => (if many then [QItem.blank] else []) ++ [QItem.entry gt.1 (q db gt.2)]) ts

/-- Multiplicity handling of `simple_query_cmd` (tysh.rs:196-215). -/
def simple_query_render (db : Types) (q : Types → TypeEntry → List (List Char))
    (ts : List (Goff × TypeEntry)) : List QItem :=
  match ts.length with
  | 0 => [QItem.no_types]
  | 1 => simple_query_entries db q false ts
  | Nat.succ (Nat.succ m) => QItem.note (m + 2) :: simple_query_entries db q true ts

/-- `simple_query_cmd` (tysh.rs:171).  A parse failure returns with no
output (the failure message is printed inside `parse_type_name`); the
dead re-parsing block at tysh.rs:188-194 has no effect and is omitted. -/
def simple_query_cmd (db : Types) (args : List Char)
    (q : Types → TypeEntry → List (List Char)) : List QItem :=
  match parse_type_name (rustTrim args) with
  | none => []
  | some none => []
  | some (some (ParsedTypeName.Name n)) => simple_query_render db q (db.types_by_name n)
  | some (some (ParsedTypeName.Goff o)) =>
    simple_query_render db q ((db.type_from_goff o).toList.map (fun t => (o, t)))

/-- Optional "aligned" line of a variant in `cmd_info` (tysh.rs:324,335). -/
def info_variant_align_lines (v : VariantS) : List (List Char) :=
  match v.member.alignment with
  | some a => [("  - aligned: ".data) ++ decRepr a ++ (" bytes".data)]
  | none => []

/-- Lines printed for one explicit-valued variant in `cmd_info`'s first
pass over the mapping (tysh.rs:319-328). -/
def info_explicit_variant_lines (db : Types) (val : Nat) (v : VariantS) : List (List Char) :=
  (("- when discriminator == ".data) ++ decRepr val)
  :: (("  - contains type: ".data) ++ named_goff db v.member.tyGoff)
  :: (("  - at offset: ".data) ++ decRepr v.member.location ++ (" bytes".data))
  :: info_variant_align_lines v

/-- Lines printed for the default variant in `cmd_info`'s second pass
(tysh.rs:330-339). -/
def info_default_variant_lines (db : Types) (v : VariantS) : List (List Char) :=
  ("- any other discriminator value".data)
  :: (("  - contains type: ".data) ++ named_goff db v.member.tyGoff)
  :: (("  - at offset: ".data) ++ decRepr v.member.location ++ (" bytes".data))
  :: info_variant_align_lines v

/-- Header lines of `cmd_info`'s `VariantShape::Many` arm
(tysh.rs:309-316). -/
def info_many_header (db : Types) (member : Member)
    (variants : List (Option Nat × VariantS)) : List (List Char) :=
  (match db.name_from_goff member.tyGoff with
   | some dname =>
     [("- ".data) ++ decRepr variants.length ++ (" variants discriminated by ".data) ++
       dname ++ (" at offset ".data) ++ decRepr member.location]
   | none =>
     [("- ".data) ++ decRepr variants.length ++
       (" variants discriminated by an anonymous type at offset ".data) ++
       decRepr member.location]) ++
  (if member.artificial then [] else [("  - not artificial, oddly".data)])

/-- `cmd_info`, `Enum`/`Many` arm (tysh.rs:308-340): header, then a first
pass printing all explicit-valued variants, then a second pass printing
the default variant. -/
def info_variants_many (db : Types) (member : Member)
    (variants : List (Option Nat × VariantS)) : List (List Char) :=
  info_many_header db member variants ++
  cmap (fun p =>
    match p.1 with
    | some val => info_explicit_variant_lines db val p.2
    | none => []) variants ++
  cmap (fun p =>
    match p.1 with
    | some _ => []
    | none => info_default_variant_lines db p.2) variants

/-- The `Base` arm of `cmd_def` (tysh.rs:387-407): the fixed
(encoding, byte size) table.  Rust's match is translated arm by arm into
an if-chain, earlier arms winning, exactly as match arms do. -/
def baseDefName (e : Encoding) (size : Nat) : List Char :=
  if size = 0 then ("()".data)
  else if e = Encoding.Unsigned ∧ size = 1 then ("u8".data)
  else if e = Encoding.Unsigned ∧ size = 2 then ("u16".data)
  else if e = Encoding.Unsigned ∧ size = 4 then ("u32".data)
  else if e = Encoding.Unsigned ∧ size = 8 then ("u64".data)
  else if e = Encoding.Unsigned ∧ size = 16 then ("u128".data)
  else if e = Encoding.Signed ∧ size = 1 then ("i8".data)
  else if e = Encoding.Signed ∧ size = 2 then ("i16".data)
  else if e = Encoding.Signed ∧ size = 4 then ("i32".data)
  else if e = Encoding.Signed ∧ size = 8 then ("i64".data)
  else if e = Encoding.Signed ∧ size = 16 then ("i128".data)
  else if e = Encoding.Float ∧ size = 4 then ("f32".data)
  else if e = Encoding.Float ∧ size = 8 then ("f64".data)
  else if e = Encoding.Boolean ∧ size = 1 then ("bool".data)
  else if e = Encoding.UnsignedChar ∧ size = 4 then ("char".data)
  else if e = Encoding.UnsignedChar ∧ size = 1 then ("c_uchar".data)
  else if e = Encoding.SignedChar ∧ size = 1 then ("c_schar".data)
  else ("Unhandled".data) ++ encodingDebugRepr e ++ decRepr size

/-- Whether an (encoding, size) pair hits the fixed table above (i.e. is
matched by any arm before the catch-all). -/
def baseTableHit (e : Encoding) (size : Nat) : Bool :=
  size == 0 ||
  (match e with
   | .Unsigned => size == 1 || size == 2 || size == 4 || size == 8 || size == 16
   | .Signed => size == 1 || size == 2 || size == 4 || size == 8 || size == 16
   | .Float => size == 4 || size == 8
   | .Boolean => size == 1
   | .UnsignedChar => size == 4 || size == 1
   | .SignedChar => size == 1
   | .Other => false)

/-- One member line of a tuple-like struct body inside an enum variant
(tysh.rs:480-483 and 514-517); `none` models the `.unwrap()` panic when
the member's type name does not resolve. -/
def def_tuple_member_line (db : Types) (m : Member) : Option (List Char) :=
  match db.name_from_goff m.tyGoff with
  | some mtn => some (("        ".data) ++ mtn ++ (",".data))
  | none => none

/-- One member line of a named struct body inside an enum variant
(tysh.rs:486-490 and 520-524).  `none` models either `.unwrap()` panic:
on an unresolvable member type name, or on a member with no name
(`mem.name.as_ref().unwrap()`). -/
def def_named_member_line (db : Types) (m : Member) : Option (List Char) :=
  match db.name_from_goff m.tyGoff with
  | none => none
  | some mtn =>
    match m.name with
    | some nm => some (("        ".data) ++ nm ++ (": ".data) ++ mtn ++ (",".data))
    | none => none

/-- Rendering of one enum variant in `cmd_def` (the identical code blocks
at tysh.rs:467-498 for `One` and tysh.rs:501-533 for `Many`): the variant
name (or `ANON`), then, when the payload type is a struct with members,
its inline body. -/
def def_variant_lines (db : Types) (var : VariantS) : Option (List (List Char)) :=
  let vname :=
    match var.member.name with
    | some n => ("    ".data) ++ n
    | none => ("    ANON".data)
  match db.type_from_goff var.member.tyGoff with
  | none => none
  | some mty =>
    match mty with
    | TypeEntry.Struct s =>
      if s.members.isEmpty then some [vname ++ (",".data)]
      else if s.tupleLike then
        match omap (fun om => def_tuple_member_line db om.2) s.members with
        | some memLines => some ((vname ++ ("(".data)) :: memLines ++ [("    ),".data)])
        | none => none
      else
        match omap (fun om => def_named_member_line db om.2) s.members with
        | some memLines => some ((vname ++ (" \x7b".data)) :: memLines ++ [("    \x7d,".data)])
        | none => none
    | _ => some [vname ++ ("(unexpected weirdness),".data)]

/-- Header line of `cmd_def`'s `Enum` arm (tysh.rs:455-463). -/
def def_enum_header (s : EnumS) : List Char :=
  ("enum ".data) ++ s.name ++
  (if s.templateTypeParameters.isEmpty then []
   else ("<".data) ++ cmap (fun t => t.name) s.templateTypeParameters ++ (">".data)) ++
  (" \x7b".data)

/-- `cmd_def`, `Enum` arm (tysh.rs:454-537). -/
def def_enum_lines (db : Types) (s : EnumS) : Option (List (List Char)) :=
  match s.variantPart.shape with
  | VariantShape.Zero => some [def_enum_header s, ("\x7d".data)]
  | VariantShape.One v =>
    match def_variant_lines db v with
    | some ls => some (def_enum_header s :: ls ++ [("\x7d".data)])
    | none => none
  | VariantShape.Many _ variants =>
    match omap (fun p => def_variant_lines db p.2) variants with
    | some lss => some (def_enum_header s :: lss.flatten ++ [("\x7d".data)])
    | none => none

/-- First line fragment of `cmd_def`'s `Struct` arm (tysh.rs:422-430). -/
def def_struct_first (s : StructS) : List Char :=
  ("struct ".data) ++ s.name ++
  (if s.templateTypeParameters.isEmpty then []
   else ("<".data) ++ cmap (fun t => t.name ++ (",".data)) s.templateTypeParameters ++ (">".data))

/-- One member line of a top-level tuple-like struct (tysh.rs:437-439). -/
def struct_tuple_line (db : Types) (m : Member) : Option (List Char) :=
  match db.name_from_goff m.tyGoff with
  | some mtn => some (("    ".data) ++ mtn ++ (",".data))
  | none => none

/-- One member line of a top-level named struct (tysh.rs:443-449):
anonymous members are printed under the literal `ANON` placeholder. -/
def struct_named_line (db : Types) (m : Member) : Option (List Char) :=
  match db.name_from_goff m.tyGoff with
  | none => none
  | some mtn =>
    match m.name with
    | some nm => some (("    ".data) ++ nm ++ (": ".data) ++ mtn ++ (",".data))
    | none => some (("    ANON: ".data) ++ mtn ++ (",".data))

/-- `cmd_def`, `Struct` arm (tysh.rs:421-453). -/
def def_struct_lines (db : Types) (s : StructS) : Option (List (List Char)) :=
  if s.members.isEmpty then some [def_struct_first s ++ (";".data)]
  else if s.tupleLike then
    match omap (fun om => struct_tuple_line db om.2) s.members with
    | some ls => some ((def_struct_first s ++ ("(".data)) :: ls ++ [(");".data)])
    | none => none
  else
    match omap (fun om => struct_named_line db om.2) s.members with
    | some ls => some ((def_struct_first s ++ (" \x7b".data)) :: ls ++ [("\x7d".data)])
    | none => none

/-- `cmd_def`, `Subroutine` arm (tysh.rs:548-561). -/
def def_subroutine_lines (db : Types) (s : SubroutineS) : Option (List (List Char)) :=
  match omap (fun p => db.name_from_goff p) s.formalParameters with
  | none => none
  | some ps =>
    let paramLines := cmap (fun n => [("    ".data) ++ n ++ (",".data)]) ps
    let tail :=
      [("    // code goes here".data),
       ("    // (this is a subroutine type, _not_ a fn ptr)".data),
       ("    unimplemented!();".data),
       ("\x7d".data)]
    match s.returnTyGoff with
    | some rt =>
      match db.name_from_goff rt with
      | none => none
      | some rn => some (("fn(".data) :: paramLines ++ [(") -> ".data) ++ rn ++ (" \x7b".data)] ++ tail)
    | none => some (("fn(".data) :: paramLines ++ [(") \x7b".data)] ++ tail)

/-- The per-entry body of `cmd_def` (tysh.rs:381-565), without the leading
blank line it prints before each entry.  `none` models a panic from one of
the `.unwrap()` calls. -/
def cmd_def_body (db : Types) (t : TypeEntry) : Option (List (List Char)) :=
  match t with
  | TypeEntry.Base s => some [("type _ = ".data) ++ baseDefName s.encoding s.byteSize ++ (";".data)]
  | TypeEntry.Pointer s => some [s.name]
  | TypeEntry.Array s =>
    match db.name_from_goff s.elementTyGoff with
    | none => none
    | some name =>
      match s.count with
      | some n => some [("[".data) ++ name ++ ("; ".data) ++ decRepr n ++ ("]".data)]
      | none => some [("[".data) ++ name ++ ("]".data)]
  | TypeEntry.Struct s => def_struct_lines db s
  | TypeEntry.Enum s => def_enum_lines db s
  | TypeEntry.CEnum s =>
    some ((("enum ".data) ++ s.name ++ (" \x7b".data)) ::
      cmap (fun p => [("    ".data) ++ p.2.name ++ (" = 0x".data) ++ toHex p.1 ++ (",".data)]) s.enumerators ++
      [("\x7d".data)])
  | TypeEntry.Union _ => some []
  | TypeEntry.Subroutine s => def_subroutine_lines db s

/-- Address-argument parsing of `cmd_addr2line` (tysh.rs:568-580):
`0x`-prefixed hexadecimal, else plain decimal. -/
def addr_parse (args : List Char) : Option Nat :=
  if lStartsWith args ("0x".data) then fromStrRadix 16 USIZE (args.drop 2)
  else fromStrRadix 10 USIZE args

/-- Output of `cmd_addr2line`: the echoed parse failure, a coordinate
triple, or the no-information report. -/
inductive Addr2LineOut where
  | parse_err (txt : List Char)
  | coord (file : List Char) (line : Option Nat) (column : Option Nat)
  | no_info
deriving DecidableEq

/-- `cmd_addr2line` (tysh.rs:567).  On a parse failure the command echoes
the offending text and returns before any line-table lookup. -/
def cmd_addr2line (db : Types) (args : List Char) : Addr2LineOut :=
  match addr_parse args with
  | none => Addr2LineOut.parse_err args
  | some a =>
    match db.lookup_line_row a with
    | some row => Addr2LineOut.coord row.file row.line row.column
    | none => Addr2LineOut.no_info

/-- What the read loop does after one line is read (tysh.rs:25-53). -/
inductive LineAct where
  | cont
  | exitLoop
  | ranCommand (name rest : List Char)
  | helpShown
  | unknownCmd (name : List Char)
deriving DecidableEq

/-- Effects of handling one input line: the history entry added (if any),
the lines printed by the dispatcher itself, and the action taken. -/
structure LineStep where
  history_entry : Option (List Char)
  output : List (List Char)
  act : LineAct
deriving DecidableEq

/-- The command names of the `COMMANDS` table (tysh.rs:111). -/
def command_names : List (List Char) :=
  [("list".data), ("info".data), ("def".data), ("sizeof".data),
   ("alignof".data), ("addr2line".data)]

/-- The command descriptions of the `COMMANDS` table (tysh.rs:111). -/
def command_descs : List (List Char) :=
  [("print names of ALL types, or types containing a string".data),
   ("print a summary of a type".data),
   ("print a type as a pseudo-Rust definition".data),
   ("print size of type in bytes".data),
   ("print alignment of type in bytes".data),
   ("look up line number information".data)]

/-- Rust `{:12}` formatting: left-aligned, space-padded to width 12. -/
def padTo12 (s : List Char) : List Char := s ++ List.replicate (12 - s.length) ' '

/-- Output of the `help` builtin (tysh.rs:37-42). -/
def help_lines : List (List Char) :=
  ("commands:".data) ::
  (List.zip command_names command_descs).map (fun p => padTo12 p.1 ++ (" ".data) ++ p.2)

/-- Handling of one `Ok(line)` iteration of the read loop (tysh.rs:25-53):
trim, split at the first whitespace, silently continue on an empty line
(before any history entry is added), otherwise record history and
dispatch. -/
def handle_line (line : List Char) : LineStep :=
  let t := rustTrim line
  let p := (splitOnceWs t).getD (t, [])
  if t = [] then ⟨none, [], LineAct.cont⟩
  else if p.1 = ("exit".data) then ⟨some t, [], LineAct.exitLoop⟩
  else if p.1 = ("help".data) then ⟨some t, help_lines, LineAct.helpShown⟩
  else if command_names.contains p.1 then ⟨some t, [], LineAct.ranCommand p.1 p.2⟩
  else ⟨some t, [("unknown command: ".data) ++ p.1, ("for help, try: help".data)],
        LineAct.unknownCmd p.1⟩

/-- A one-byte unsigned base type, used by the concrete databases below. -/
def tU8 : TypeEntry := TypeEntry.Base ⟨Encoding.Unsigned, 1⟩

/-- An empty database (no types, no line table). -/
def db0 : Types := ⟨[], fun _ => none, fun _ => [], fun _ => none, fun _ => none⟩

def gU8 : Goff := Goff.DebugInfoOffset 1

def gInner : Goff := Goff.DebugInfoOffset 2

/-- A member with no name: legal per the data model (a `Member` has an
optional name). -/
def anonMember : Member := ⟨none, gU8, 0, none, false⟩

/-- A non-tuple-like struct containing one anonymous member. -/
def innerStruct : StructS := ⟨("Inner".data), 1, none, false, [], [(0, anonMember)]⟩

/-- Database holding `u8` and the `Inner` struct above. -/
def db5 : Types :=
  ⟨[(gU8, tU8), (gInner, TypeEntry.Struct innerStruct)],
   fun g => if g = gU8 then some ("u8".data)
            else if g = gInner then some ("Inner".data) else none,
   fun _ => [],
   fun g => if g = gU8 then some tU8
            else if g = gInner then some (TypeEntry.Struct innerStruct) else none,
   fun _ => none⟩

/-- An enum variant whose payload is the anonymous-membered struct. -/
def v5 : VariantS := ⟨⟨some ("V".data), gInner, 0, none, false⟩⟩

def gEmptyS : Goff := Goff.DebugInfoOffset 3

/-- An empty payload struct (renders as just the variant name). -/
def emptyStruct : StructS := ⟨("E".data), 0, none, false, [], []⟩

def okVar : VariantS := ⟨⟨some ("Ok".data), gEmptyS, 0, none, true⟩⟩

def errVar : VariantS := ⟨⟨some ("Err".data), gEmptyS, 0, none, true⟩⟩

def discMember : Member := ⟨none, gU8, 0, none, true⟩

/-- A two-variant enum whose mapping iterates the default (absent-key)
entry first, then the explicit-value entry. -/
def twoVariantEnum : EnumS :=
  ⟨("Two".data), 1, none, [],
   ⟨VariantShape.Many discMember [(none, errVar), (some 0, okVar)]⟩⟩

/-- Database for the two-variant enum scenario. -/
def db2 : Types :=
  ⟨[(gEmptyS, TypeEntry.Struct emptyStruct)],
   fun _ => none,
   fun _ => [],
   fun g => if g = gEmptyS then some (TypeEntry.Struct emptyStruct) else none,
   fun _ => none⟩

def g1 : Goff := Goff.DebugInfoOffset 16

def g2 : Goff := Goff.DebugInfoOffset 32

def g3 : Goff := Goff.DebugTypesOffset 48

/-- Database in which the name "foo" resolves to exactly three types. -/
def db3 : Types :=
  ⟨[(g1, tU8), (g2, tU8), (g3, tU8)],
   fun _ => some ("foo".data),
   fun n => if n = ("foo".data) then [(g1, tU8), (g2, tU8), (g3, tU8)] else [],
   fun _ => none,
   fun _ => none⟩

/-- A trivial per-entry body (prints nothing). -/
def q0 : Types → TypeEntry → List (List Char) := fun _ _ => []

def gAnon : Goff := Goff.DebugInfoOffset 4

/-- Database holding a single type whose name does not resolve. -/
def db6 : Types := ⟨[(gAnon, tU8)], fun _ => none, fun _ => [], fun _ => none, fun _ => none⟩

/-! ## Helper lemmas: string predicates -/

theorem lStartsWith_append (l t : List Char) : lStartsWith (l ++ t) l = true := by
  simp [lStartsWith, List.take_left]

theorem lStartsWith_append_left (l t p : List Char) (h : p.length ≤ l.length) :
    lStartsWith (l ++ t) p = lStartsWith l p := by
  simp [lStartsWith, List.take_append_eq_append_take, Nat.sub_eq_zero_of_le h]

theorem lStartsWith_take {s p : List Char} (h : lStartsWith s p = true) :
    s.take p.length = p := by
  simpa [lStartsWith] using h

theorem lStartsWith_length {s p : List Char} (h : lStartsWith s p = true) :
    p.length ≤ s.length := by
  have h2 := congrArg List.length (lStartsWith_take h)
  simp [List.length_take] at h2
  omega

theorem lEndsWith_concat (l : List Char) (c : Char) : lEndsWith (l ++ [c]) [c] = true := by
  have h : (l ++ [c]).length - ([c] : List Char).length = l.length := by
    simp
  simp [lEndsWith, h, List.drop_left]

theorem lEndsWith_single_ne_nil {s : List Char} {c : Char} (h : lEndsWith s [c] = true) :
    s ≠ [] := by
  intro he
  subst he
  simp [lEndsWith] at h

theorem lEndsWith_single_drop {s : List Char} {c : Char} (k : Nat)
    (h : lEndsWith s [c] = true) (hk : k < s.length) : lEndsWith (s.drop k) [c] = true := by
  simp only [lEndsWith, List.length_singleton] at h ⊢
  rw [List.length_drop, List.drop_drop]
  have : k + (s.length - k - 1) = s.length - 1 := by omega
  rw [this]
  exact h

theorem sliceChk_top {s : List Char} (h8 : 8 ≤ s.length) :
    sliceChk s 8 s.length = some (s.drop 8) := by
  have hc : 8 ≤ s.length ∧ s.length ≤ s.length := ⟨h8, Nat.le_refl _⟩
  simp only [sliceChk, if_pos hc]
  rw [← List.length_drop, List.take_length]

/-! ## Helper lemmas: digit rendering and re-parsing -/

theorem natDigitsAux_fuel (base : Nat) (hb : 2 ≤ base) :
    ∀ n f g, n < f → n < g → natDigitsAux base f n = natDigitsAux base g n := by
  intro n
  induction n using Nat.strong_induction_on with
  | _ n ih =>
    intro f g hf hg
    match f, g with
    | f' + 1, g' + 1 =>
      simp only [natDigitsAux]
      by_cases h : n < base
      · simp [h]
      · simp only [h, if_false]
        have hdiv : n / base < n := Nat.div_lt_self (by omega) (by omega)
        rw [ih (n / base) hdiv f' g' (by omega) (by omega)]

theorem toHex_eq (n : Nat) :
    toHex n = if n < 16 then [hexDigitChar n]
              else toHex (n / 16) ++ [hexDigitChar (n % 16)] := by
  show natDigitsAux 16 (n + 1) n = _
  simp only [natDigitsAux]
  by_cases h : n < 16
  · simp [h]
  · simp only [h, if_false]
    have hdiv : n / 16 < n := Nat.div_lt_self (by omega) (by omega)
    rw [natDigitsAux_fuel 16 (by omega) (n / 16) n (n / 16 + 1) (by omega) (by omega)]
    rfl

theorem toHex_ne_nil (n : Nat) : toHex n ≠ [] := by
  rw [toHex_eq]
  by_cases h : n < 16 <;> simp [h]

theorem charToDigit16_hexDigitChar (d : Nat) (h : d < 16) :
    charToDigit 16 (hexDigitChar d) = some d := by
  interval_cases d <;> decide

theorem toHex_mem_digits (n : Nat) :
    ∀ c ∈ toHex n, ∃ d, d < 16 ∧ c = hexDigitChar d := by
  induction n using Nat.strong_induction_on with
  | _ n ih =>
    intro c hc
    rw [toHex_eq] at hc
    by_cases h : n < 16
    · simp [h] at hc
      exact ⟨n, h, hc⟩
    · simp only [h, if_false, List.mem_append, List.mem_singleton] at hc
      rcases hc with hc | hc
      · exact ih (n / 16) (Nat.div_lt_self (by omega) (by omega)) c hc
      · exact ⟨n % 16, Nat.mod_lt _ (by omega), hc⟩

theorem digitsValAux_append (radix : Nat) (l1 l2 : List Char) :
    ∀ a, digitsValAux radix a (l1 ++ l2) =
      match digitsValAux radix a l1 with
      | some v => digitsValAux radix v l2
      | none => none := by
  induction l1 with
  | nil => intro a; simp [digitsValAux]
  | cons c cs ih =>
    intro a
    simp only [List.cons_append, digitsValAux]
    cases charToDigit radix c with
    | some d => exact ih (a * radix + d)
    | none => rfl

theorem digitsValAux_toHex (n : Nat) :
    ∀ a, digitsValAux 16 a (toHex n) = some (a * 16 ^ (toHex n).length + n) := by
  induction n using Nat.strong_induction_on with
  | _ n ih =>
    intro a
    rw [toHex_eq]
    by_cases h : n < 16
    · simp [h, digitsValAux, charToDigit16_hexDigitChar n h]
    · simp only [h, if_false]
      rw [digitsValAux_append, ih (n / 16) (Nat.div_lt_self (by omega) (by omega)) a]
      simp only [digitsValAux, charToDigit16_hexDigitChar (n % 16) (Nat.mod_lt _ (by omega))]
      have hpow : (16 : Nat) ^ ((toHex (n / 16)).length + 1) =
          16 ^ (toHex (n / 16)).length * 16 := pow_succ 16 _
      have hdm : n / 16 * 16 + n % 16 = n := Nat.div_add_mod' n 16
      simp only [List.length_append, List.length_singleton, hpow]
      congr 1
      calc (a * 16 ^ (toHex (n / 16)).length + n / 16) * 16 + n % 16
          = a * (16 ^ (toHex (n / 16)).length * 16) + (n / 16 * 16 + n % 16) := by ring
        _ = a * (16 ^ (toHex (n / 16)).length * 16) + n := by rw [hdm]

theorem digitsValAux_replicate_zero :
    ∀ k, digitsValAux 16 0 (List.replicate k '0') = some 0 := by
  intro k
  induction k with
  | zero => rfl
  | succ k ih =>
    simp only [List.replicate_succ, digitsValAux]
    have h0 : charToDigit 16 '0' = some 0 := by decide
    rw [h0]
    simpa using ih

theorem hexPad8_head_not_sign :
    ∀ x, ∃ c cs, hexPad8 x = c :: cs ∧ c ≠ '+' ∧ c ≠ '-' := by
  intro x
  unfold hexPad8
  cases hk : 8 - (toHex x).length with
  | zero =>
    obtain ⟨c, cs, hcons⟩ : ∃ c cs, toHex x = c :: cs := by
      cases h : toHex x with
      | nil => exact absurd h (toHex_ne_nil x)
      | cons c cs => exact ⟨c, cs, rfl⟩
    obtain ⟨d, hd, hcd⟩ := toHex_mem_digits x c (by rw [hcons]; exact List.mem_cons_self _ _)
    refine ⟨c, cs, ?_, ?_, ?_⟩
    · simp [hcons]
    · subst hcd; intro h; have := charToDigit16_hexDigitChar d hd; rw [h] at this; simp [charToDigit] at this
    · subst hcd; intro h; have := charToDigit16_hexDigitChar d hd; rw [h] at this; simp [charToDigit] at this
  | succ k =>
    exact ⟨'0', List.replicate k '0' ++ toHex x, by simp [List.replicate_succ], by decide, by decide⟩

theorem digitsValAux_hexPad8 (x : Nat) :
    digitsValAux 16 0 (hexPad8 x) = some x := by
  unfold hexPad8
  rw [digitsValAux_append, digitsValAux_replicate_zero]
  show digitsValAux 16 0 (toHex x) = some x
  rw [digitsValAux_toHex]
  simp

theorem fromStrRadix_hexPad8 (x : Nat) (hx : x < USIZE) :
    fromStrRadix 16 USIZE (hexPad8 x) = some x := by
  obtain ⟨c, cs, hcons, hp, hm⟩ := hexPad8_head_not_sign x
  rw [hcons]
  simp only [fromStrRadix, hp, if_false]
  have hval : digitsValAux 16 0 (c :: cs) = some x := by rw [← hcons]; exact digitsValAux_hexPad8 x
  simp [digitsCore, hval, hx]

/-! ## Helper lemmas: shape of parse_type_name -/

theorem parseGoffBody_shape (rest : List Char) (hend : lEndsWith rest (">".data) = true) :
    parseGoffBody rest = some none ∨
      ∃ g, parseGoffBody rest = some (some (ParsedTypeName.Goff g)) := by
  unfold parseGoffBody
  by_cases hi : lStartsWith rest ("info+0x".data) = true
  · have h7 : ("info+0x".data : List Char).length ≤ rest.length := lStartsWith_length hi
    have hlen7 : ("info+0x".data : List Char).length = 7 := by decide
    have h8 : 8 ≤ rest.length := by
      by_contra hcon
      have h77 : rest.length = 7 := by omega
      have ht := lStartsWith_take hi
      rw [hlen7, ← h77] at ht
      rw [List.take_length] at ht
      rw [ht] at hend
      exact absurd hend (by decide)
    have hslice : sliceChk rest 7 (rest.length - 1) =
        some ((rest.drop 7).take (rest.length - 1 - 7)) := by
      simp only [sliceChk]
      rw [if_pos (by omega)]
    simp only [hi, if_true, hslice]
    cases hf : fromStrRadix 16 USIZE ((rest.drop 7).take (rest.length - 1 - 7)) with
    | some n => exact Or.inr ⟨Goff.DebugInfoOffset n, rfl⟩
    | none => exact Or.inl rfl
  · by_cases hty : lStartsWith rest ("types+0x".data) = true
    · have h8' : ("types+0x".data : List Char).length ≤ rest.length := lStartsWith_length hty
      have hlen8 : ("types+0x".data : List Char).length = 8 := by decide
      have h9 : 9 ≤ rest.length := by
        by_contra hcon
        have h88 : rest.length = 8 := by omega
        have ht := lStartsWith_take hty
        rw [hlen8, ← h88] at ht
        rw [List.take_length] at ht
        rw [ht] at hend
        exact absurd hend (by decide)
      have hslice : sliceChk rest 8 (rest.length - 1) =
          some ((rest.drop 8).take (rest.length - 1 - 8)) := by
        simp only [sliceChk]
        rw [if_pos (by omega)]
      simp only [hi, hty, if_true, if_false, Bool.false_eq_true, hslice]
      cases hf : fromStrRadix 16 USIZE ((rest.drop 8).take (rest.length - 1 - 8)) with
      | some n => exact Or.inr ⟨Goff.DebugTypesOffset n, rfl⟩
      | none => exact Or.inl rfl
    · exact Or.inl (by simp only [hi, hty, if_false, Bool.false_eq_true])

theorem parse_type_name_guard_false (s : List Char)
    (h : (lStartsWith s ("<.debug_".data) && lEndsWith s (">".data)) = false) :
    parse_type_name s = some (some (ParsedTypeName.Name s)) := by
  simp only [parse_type_name, h, Bool.false_eq_true, if_false]

theorem parse_type_name_guard_true (s : List Char)
    (hp : lStartsWith s ("<.debug_".data) = true) (he : lEndsWith s (">".data) = true) :
    parse_type_name s = some none ∨
      ∃ g, parse_type_name s = some (some (ParsedTypeName.Goff g)) := by
  have hl8 : ("<.debug_".data : List Char).length = 8 := by decide
  have h8 : 8 ≤ s.length := by
    have := lStartsWith_length hp
    omega
  have hcond : (lStartsWith s ("<.debug_".data) && lEndsWith s (">".data)) = true := by
    rw [hp, he]
    rfl
  simp only [parse_type_name, hcond, if_true, sliceChk_top h8]
  by_cases h9 : 8 < s.length
  · exact parseGoffBody_shape _ (lEndsWith_single_drop 8 he h9)
  · have hlen : s.length = 8 := by omega
    have hnil : s.drop 8 = [] := by
      apply List.eq_nil_of_length_eq_zero
      simp [hlen]
    rw [hnil]
    exact Or.inl (by decide)

/-! ## Claim C1: goff text round-trip -/

/-- C1: for every goff (either section tag, any offset representable in the
machine word), formatting it in its canonical textual form and re-parsing
the text with `parse_type_name` yields an equal goff. -/
theorem goff_text_roundtrip (g : Goff) (h : g.off < USIZE) :
    parse_type_name (goffText g) = some (some (ParsedTypeName.Goff g)) := by
  cases g with
  | DebugInfoOffset x =>
    have hx : x < USIZE := h
    have h1 : goffText (Goff.DebugInfoOffset x) =
        ("<.debug_".data) ++ (("info+0x".data) ++ (hexPad8 x ++ (">".data))) := by
      show ("<.debug_info+0x".data) ++ hexPad8 x ++ (">".data) = _
      rw [show ("<.debug_info+0x".data : List Char) =
        ("<.debug_".data) ++ ("info+0x".data) from by decide]
      simp [List.append_assoc]
    rw [h1]
    have hp : lStartsWith (("<.debug_".data) ++ (("info+0x".data) ++ (hexPad8 x ++ (">".data))))
        ("<.debug_".data) = true := lStartsWith_append _ _
    have he : lEndsWith (("<.debug_".data) ++ (("info+0x".data) ++ (hexPad8 x ++ (">".data))))
        (">".data) = true := by
      rw [show ("<.debug_".data) ++ (("info+0x".data) ++ (hexPad8 x ++ (">".data))) =
        (("<.debug_".data) ++ ("info+0x".data) ++ hexPad8 x) ++ (">".data) from by
          simp [List.append_assoc]]
      exact lEndsWith_concat _ '>'
    have hcond : (lStartsWith (("<.debug_".data) ++ (("info+0x".data) ++ (hexPad8 x ++ (">".data))))
        ("<.debug_".data) &&
        lEndsWith (("<.debug_".data) ++ (("info+0x".data) ++ (hexPad8 x ++ (">".data))))
        (">".data)) = true := by rw [hp, he]; rfl
    have h8 : 8 ≤ (("<.debug_".data) ++ (("info+0x".data) ++ (hexPad8 x ++ (">".data)))).length := by
      simp [List.length_append]
    simp only [parse_type_name, hcond, if_true, sliceChk_top h8]
    rw [List.drop_left' (show ("<.debug_".data : List Char).length = 8 from by decide)]
    have hpi : lStartsWith (("info+0x".data) ++ (hexPad8 x ++ (">".data)))
        ("info+0x".data) = true := lStartsWith_append _ _
    have hlen : ((("info+0x".data) ++ (hexPad8 x ++ (">".data)))).length =
        (hexPad8 x).length + 8 := by
      simp [List.length_append]
    have hslice : sliceChk (("info+0x".data) ++ (hexPad8 x ++ (">".data))) 7
        ((("info+0x".data) ++ (hexPad8 x ++ (">".data))).length - 1) = some (hexPad8 x) := by
      have hcnd : 7 ≤ (("info+0x".data) ++ (hexPad8 x ++ (">".data))).length - 1 ∧
          (("info+0x".data) ++ (hexPad8 x ++ (">".data))).length - 1 ≤
            (("info+0x".data) ++ (hexPad8 x ++ (">".data))).length := by
        refine ⟨?_, Nat.sub_le _ _⟩
        rw [hlen]
        omega
      unfold sliceChk
      rw [if_pos hcnd]
      rw [List.drop_left' (show ("info+0x".data : List Char).length = 7 from by decide)]
      rw [hlen]
      have harith : (hexPad8 x).length + 8 - 1 - 7 = (hexPad8 x).length := by omega
      rw [harith, List.take_left' rfl]
    simp only [parseGoffBody, hpi, if_true, hslice, fromStrRadix_hexPad8 x hx]
  | DebugTypesOffset x =>
    have hx : x < USIZE := h
    have h1 : goffText (Goff.DebugTypesOffset x) =
        ("<.debug_".data) ++ (("types+0x".data) ++ (hexPad8 x ++ (">".data))) := by
      show ("<.debug_types+0x".data) ++ hexPad8 x ++ (">".data) = _
      rw [show ("<.debug_types+0x".data : List Char) =
        ("<.debug_".data) ++ ("types+0x".data) from by decide]
      simp [List.append_assoc]
    rw [h1]
    have hp : lStartsWith (("<.debug_".data) ++ (("types+0x".data) ++ (hexPad8 x ++ (">".data))))
        ("<.debug_".data) = true := lStartsWith_append _ _
    have he : lEndsWith (("<.debug_".data) ++ (("types+0x".data) ++ (hexPad8 x ++ (">".data))))
        (">".data) = true := by
      rw [show ("<.debug_".data) ++ (("types+0x".data) ++ (hexPad8 x ++ (">".data))) =
        (("<.debug_".data) ++ ("types+0x".data) ++ hexPad8 x) ++ (">".data) from by
          simp [List.append_assoc]]
      exact lEndsWith_concat _ '>'
    have hcond : (lStartsWith (("<.debug_".data) ++ (("types+0x".data) ++ (hexPad8 x ++ (">".data))))
        ("<.debug_".data) &&
        lEndsWith (("<.debug_".data) ++ (("types+0x".data) ++ (hexPad8 x ++ (">".data))))
        (">".data)) = true := by rw [hp, he]; rfl
    have h8 : 8 ≤ (("<.debug_".data) ++ (("types+0x".data) ++ (hexPad8 x ++ (">".data)))).length := by
      simp [List.length_append]
    simp only [parse_type_name, hcond, if_true, sliceChk_top h8]
    rw [List.drop_left' (show ("<.debug_".data : List Char).length = 8 from by decide)]
    have hpi : lStartsWith (("types+0x".data) ++ (hexPad8 x ++ (">".data)))
        ("info+0x".data) = false := by
      rw [lStartsWith_append_left _ _ _ (by decide)]
      decide
    have hpt : lStartsWith (("types+0x".data) ++ (hexPad8 x ++ (">".data)))
        ("types+0x".data) = true := lStartsWith_append _ _
    have hlen : ((("types+0x".data) ++ (hexPad8 x ++ (">".data)))).length =
        (hexPad8 x).length + 9 := by
      simp [List.length_append]
    have hslice : sliceChk (("types+0x".data) ++ (hexPad8 x ++ (">".data))) 8
        ((("types+0x".data) ++ (hexPad8 x ++ (">".data))).length - 1) = some (hexPad8 x) := by
      have hcnd : 8 ≤ (("types+0x".data) ++ (hexPad8 x ++ (">".data))).length - 1 ∧
          (("types+0x".data) ++ (hexPad8 x ++ (">".data))).length - 1 ≤
            (("types+0x".data) ++ (hexPad8 x ++ (">".data))).length := by
        refine ⟨?_, Nat.sub_le _ _⟩
        rw [hlen]
        omega
      unfold sliceChk
      rw [if_pos hcnd]
      rw [List.drop_left' (show ("types+0x".data : List Char).length = 8 from by decide)]
      rw [hlen]
      have harith : (hexPad8 x).length + 9 - 1 - 8 = (hexPad8 x).length := by omega
      rw [harith, List.take_left' rfl]
    simp only [parseGoffBody, hpi, hpt, if_true, if_false, Bool.false_eq_true, hslice,
      fromStrRadix_hexPad8 x hx]

/-- C1 witness: the round trip evaluated at the concrete goff
`<.debug_info+0x00000010>`. -/
theorem goff_text_roundtrip_witness :
    (Goff.DebugInfoOffset 16).off < USIZE ∧
    parse_type_name (goffText (Goff.DebugInfoOffset 16)) =
      some (some (ParsedTypeName.Goff (Goff.DebugInfoOffset 16))) :=
  ⟨by decide, goff_text_roundtrip (Goff.DebugInfoOffset 16) (by decide)⟩

/-! ## Claims C7 and C9: parse_type_name behaviour -/

/-- C7 (amended): every input that carries the `<.debug_` prefix AND the
trailing `>` either reports a parse failure or yields a goff — it is never
treated as a name; every input lacking the prefix or lacking the trailing
`>` is treated as a name. -/
theorem parse_goff_or_fail_under_guard :
    (∀ s : List Char, lStartsWith s ("<.debug_".data) = true →
      lEndsWith s (">".data) = true →
      parse_type_name s = some none ∨
        ∃ g, parse_type_name s = some (some (ParsedTypeName.Goff g))) ∧
    (∀ s : List Char,
      (lStartsWith s ("<.debug_".data) && lEndsWith s (">".data)) = false →
      parse_type_name s = some (some (ParsedTypeName.Name s))) :=
  ⟨fun s hp he => parse_type_name_guard_true s hp he,
   fun s h => parse_type_name_guard_false s h⟩

/-- C7 witness: the guarded branch applied to the concrete malformed
reference `<.debug_x>` and the name branch applied to `plain`. -/
theorem parse_goff_or_fail_under_guard_witness :
    (parse_type_name ("<.debug_x>".data) = some none ∨
      ∃ g, parse_type_name ("<.debug_x>".data) = some (some (ParsedTypeName.Goff g))) ∧
    parse_type_name ("plain".data) = some (some (ParsedTypeName.Name ("plain".data))) :=
  ⟨parse_goff_or_fail_under_guard.1 ("<.debug_x>".data) (by decide) (by decide),
   parse_goff_or_fail_under_guard.2 ("plain".data) (by decide)⟩

/-- C7 counterexample: a string that bears the `<.debug_` prefix but lacks
the closing `>` is NOT rejected: `parse_type_name` falls back to treating
it as a type name, contradicting the claim that only strings lacking the
prefix are treated as names. -/
theorem parse_prefix_without_gt_is_name :
    parse_type_name ("<.debug_info+0x10".data) =
      some (some (ParsedTypeName.Name ("<.debug_info+0x10".data))) := by decide

/-- C9: `parse_type_name` is total — for every input it returns a parsed
name or goff, or a reported failure, and never panics: every slice it
takes is in range (and on a character boundary, since each slice border
abuts a checked ASCII prefix or the final one-byte `>`). -/
theorem parse_type_name_total (s : List Char) : ∃ r, parse_type_name s = some r := by
  by_cases h : (lStartsWith s ("<.debug_".data) && lEndsWith s (">".data)) = true
  · obtain ⟨hp, he⟩ := Bool.and_eq_true_iff.mp h
    rcases parse_type_name_guard_true s hp he with h1 | ⟨g, h1⟩
    · exact ⟨none, h1⟩
    · exact ⟨some (ParsedTypeName.Goff g), h1⟩
  · exact ⟨some (ParsedTypeName.Name s),
      parse_type_name_guard_false s (Bool.not_eq_true _ ▸ Bool.of_not_eq_true h)⟩

/-! ## Claim C2: two-variant enum with fallback -/

/-- C2 (amended): for a Many-shaped mapping holding one explicit-value
variant and one default variant, the info summary prints both variant
blocks with every explicit-value variant before the default variant,
regardless of the mapping's iteration order.  (The def renderer, in
contrast, emits one variant line per entry in the mapping's iteration
order — see the counterexample theorem.) -/
theorem info_many_explicit_before_default (db : Types) (m : Member) (v : Nat)
    (ok err : VariantS) :
    info_variants_many db m [(some v, ok), (none, err)] =
      info_variants_many db m [(none, err), (some v, ok)] ∧
    info_variants_many db m [(some v, ok), (none, err)] =
      info_many_header db m [(some v, ok), (none, err)] ++
        (info_explicit_variant_lines db v ok ++ info_default_variant_lines db err) := by
  constructor
  · simp [info_variants_many, info_many_header, cmap]
  · simp [info_variants_many, cmap]

/-- C2 counterexample: in the def renderer the variant lines follow the
mapping's iteration order, so a mapping that iterates the default entry
first prints the default variant line (`Err`) before the explicit-value
line (`Ok`), falsifying the claim for this rendering at a concrete
input. -/
theorem def_enum_many_renders_in_mapping_order :
    def_enum_lines db2 twoVariantEnum =
      some [("enum Two \x7b".data), ("    Err,".data), ("    Ok,".data), ("\x7d".data)] ∧
    def_enum_lines db2 twoVariantEnum ≠
      some [("enum Two \x7b".data), ("    Ok,".data), ("    Err,".data), ("\x7d".data)] := by
  constructor
  · decide
  · decide

/-! ## Claim C3: multiplicity handling of simple_query_cmd -/

/-- C3 (amended): a query argument resolving by name to exactly three
entries makes `simple_query_cmd` visit exactly three results, each with
its own header, preceded by the note line — and a blank line is printed
before EVERY entry (three blank lines in total, one of them before the
first entry), not only between entries. -/
theorem simple_query_three_matches (db : Types) (q : Types → TypeEntry → List (List Char))
    (args nm : List Char) (a b c : Goff × TypeEntry)
    (hp : parse_type_name (rustTrim args) = some (some (ParsedTypeName.Name nm)))
    (hn : db.types_by_name nm = [a, b, c]) :
    simple_query_cmd db args q =
      [QItem.note 3, QItem.blank, QItem.entry a.1 (q db a.2),
       QItem.blank, QItem.entry b.1 (q db b.2),
       QItem.blank, QItem.entry c.1 (q db c.2)] := by
  simp only [simple_query_cmd, hp, hn]
  simp [simple_query_render, simple_query_entries, cmap]

/-- C3 witness: the three-match rendering at a concrete database in which
`foo` names exactly three types. -/
theorem simple_query_three_matches_witness :
    simple_query_cmd db3 ("foo".data) q0 =
      [QItem.note 3, QItem.blank, QItem.entry g1 [], QItem.blank, QItem.entry g2 [],
       QItem.blank, QItem.entry g3 []] :=
  simple_query_three_matches db3 q0 ("foo".data) ("foo".data) (g1, tU8) (g2, tU8) (g3, tU8)
    (by decide) (by decide)

/-- C3 counterexample: with exactly three matches the command prints THREE
blank lines, and the item straight after the note line — before the first
entry — is blank, falsifying "exactly two blank separator lines, none
before the first". -/
theorem simple_query_three_blanks :
    count_blank (simple_query_cmd db3 ("foo".data) q0) = 3 ∧
    (simple_query_cmd db3 ("foo".data) q0)[1]? = some QItem.blank := by
  constructor
  · decide
  · decide

/-! ## Claim C4: Base definition table -/

/-- C4: the Base definition renderer maps (encoding, byte size) per the
fixed table — (Unsigned,4) to u32, (Float,8) to f64, (Boolean,1) to bool,
byte size 0 to the unit type regardless of encoding — and every pair
outside the table renders the explicit "unhandled" marker carrying the
encoding's debug name and the size, rather than failing. -/
theorem base_def_table :
    baseDefName Encoding.Unsigned 4 = ("u32".data) ∧
    baseDefName Encoding.Float 8 = ("f64".data) ∧
    baseDefName Encoding.Boolean 1 = ("bool".data) ∧
    (∀ e, baseDefName e 0 = ("()".data)) ∧
    (∀ e s, baseTableHit e s = false →
      baseDefName e s = ("Unhandled".data) ++ encodingDebugRepr e ++ decRepr s) := by
  refine ⟨by decide, by decide, by decide, fun e => rfl, ?_⟩
  intro e s h
  cases e <;> simp_all [baseTableHit, baseDefName]

/-- C4 witness: the catch-all arm applied to the concrete off-table pair
(Signed, 3). -/
theorem base_def_table_witness :
    baseTableHit Encoding.Signed 3 = false ∧
    baseDefName Encoding.Signed 3 =
      ("Unhandled".data) ++ encodingDebugRepr Encoding.Signed ++ decRepr 3 :=
  ⟨by decide, base_def_table.2.2.2.2 Encoding.Signed 3 (by decide)⟩

/-! ## Claim C5: anonymous member in an enum variant payload -/

/-- C5: at the failing input — an enum variant whose non-tuple-like payload
struct holds an anonymous member — the inline variant renderer panics
(`mem.name.as_ref().unwrap()` at tysh.rs:489/523, modelled as `none`),
whereas the top-level Struct case renders the same member under the
literal `ANON` placeholder as the claim (and the design document)
require. -/
theorem enum_variant_anon_member_panics :
    def_variant_lines db5 v5 = none ∧
    def_struct_lines db5 innerStruct =
      some [("struct Inner \x7b".data), ("    ANON: u8,".data), ("\x7d".data)] := by
  constructor
  · decide
  · decide

/-! ## Claim C6: the list command's substring filter -/

/-- C6 (amended): with a non-empty substring argument, every printed entry
either has a resolved name containing the substring or has NO resolved
name; entries whose name is absent bypass the filter and are always
printed (the code's `if let` falls through for them). -/
theorem cmd_list_substring_filter (db : Types) (args : List Char) (hne : args ≠ []) :
    (∀ g line, (g, line) ∈ cmd_list db args →
      db.name_from_goff g = none ∨
        ∃ n, db.name_from_goff g = some n ∧ containsSub n args = true) ∧
    (∀ g t, (g, t) ∈ db.types → db.name_from_goff g = none →
      (g, named_goff db g) ∈ cmd_list db args) := by
  have hempty : args.isEmpty = false := by
    cases args with
    | nil => exact absurd rfl hne
    | cons c cs => rfl
  constructor
  · intro g line hmem
    unfold cmd_list at hmem
    rw [List.mem_map] at hmem
    obtain ⟨gt, hgt, heq⟩ := hmem
    rw [List.mem_filter] at hgt
    obtain ⟨hgt1, hkeep⟩ := hgt
    have hg : gt.1 = g := congrArg Prod.fst heq
    rw [hg] at hkeep
    unfold list_keep at hkeep
    rw [hempty] at hkeep
    simp only [Bool.false_eq_true, if_false] at hkeep
    cases hn : db.name_from_goff g with
    | none => exact Or.inl rfl
    | some n =>
      rw [hn] at hkeep
      exact Or.inr ⟨n, rfl, hkeep⟩
  · intro g t hmem hnone
    unfold cmd_list
    rw [List.mem_map]
    refine ⟨(g, t), ?_, rfl⟩
    rw [List.mem_filter]
    refine ⟨hmem, ?_⟩
    unfold list_keep
    rw [hempty]
    simp only [Bool.false_eq_true, if_false]
    rw [hnone]

/-- C6 witness: in a database whose single entry has no resolved name, the
entry is printed even under the non-empty filter `x`. -/
theorem cmd_list_substring_filter_witness :
    ("x".data : List Char) ≠ [] ∧
    (gAnon, named_goff db6 gAnon) ∈ cmd_list db6 ("x".data) :=
  ⟨by decide,
   (cmd_list_substring_filter db6 ("x".data) (by decide)).2 gAnon tU8 (by decide) (by decide)⟩

/-- C6 counterexample: the absent-name entry is NOT excluded from the
substring-filtered output — `list x` prints it. -/
theorem cmd_list_includes_anonymous :
    cmd_list db6 ("x".data) = [(gAnon, named_goff db6 gAnon)] ∧
    cmd_list db6 ("x".data) ≠ [] := by
  constructor
  · decide
  · decide

/-! ## Claim C8: addr2line address parsing -/

/-- C8: the addr2line argument parses as 0x-prefixed hexadecimal or plain
decimal (unsigned, so a leading `-` is rejected as an invalid digit); any
argument parseable as neither makes the command report a parse failure
echoing the offending text, with no coordinate output and no line-table
lookup (the result does not depend on the database's line table). -/
theorem addr2line_parse_failure :
    (∀ (db : Types) (args : List Char), addr_parse args = none →
      cmd_addr2line db args = Addr2LineOut.parse_err args) ∧
    addr_parse ("abc".data) = none ∧
    addr_parse ("-0".data) = none ∧
    addr_parse ("0x-0".data) = none ∧
    addr_parse ("0x1f".data) = some 31 ∧
    addr_parse ("42".data) = some 42 := by
  refine ⟨?_, by decide, by decide, by decide, by decide, by decide⟩
  intro db args h
  unfold cmd_addr2line
  rw [h]

/-- C8 witness: the failure branch applied to the concrete argument
`abc`. -/
theorem addr2line_parse_failure_witness :
    cmd_addr2line db0 ("abc".data) = Addr2LineOut.parse_err ("abc".data) :=
  addr2line_parse_failure.1 db0 ("abc".data) (by decide)

/-! ## Claim C10: blank input lines -/

theorem dropWhile_all_nil {p : Char → Bool} (l : List Char) (h : ∀ c ∈ l, p c = true) :
    l.dropWhile p = [] := by
  rw [List.dropWhile_eq_nil_iff]
  exact h

/-- C10: an input line that is empty or consists only of whitespace makes
the read loop dispatch no command, add no history entry and print
nothing — it silently continues to the next prompt. -/
theorem handle_blank_line (line : List Char) (h : ∀ c ∈ line, isWS c = true) :
    handle_line line = ⟨none, [], LineAct.cont⟩ := by
  have ht : rustTrim line = [] := by
    unfold rustTrim
    rw [dropWhile_all_nil line h]
    simp
  simp [handle_line, ht]

/-- C10 witness: the read loop applied to the concrete all-whitespace
line of two spaces. -/
theorem handle_blank_line_witness :
    handle_line ("  ".data) = ⟨none, [], LineAct.cont⟩ :=
  handle_blank_line ("  ".data) (by decide)
